import Mathlib

/-!
Shallow embedding of the modal-client core: the stream-capture worker
(src/modal/_output_capture.py) and the application lifecycle orchestrator
(src/modal/app.py), with theorems settling the specification claims.

Conventions: Python strings are modelled as Lean `String` (or `List Char` for
the character-level splitting), Python `None` as `Option.none`, raised
exceptions as `Except.error`, and the remote backend (spec section 6: an opaque
request/response service outside this repository) as explicit parameters or as
an executable `Servicer` state.
-/

namespace Spec2Proof

/-! ## Stream capture: `capture_thread` in src/modal/_output_capture.py

The worker repeatedly reads a raw chunk, decodes it, prepends the retained
buffer, and splits on `re.split("(\r\n|\r|\n)", buf + data)`.  The regex scan
is leftmost-first with the alternatives tried in order, so a `"\r"` followed by
`"\n"` always matches as the two-character separator. -/

/-- Helper used by `reSplit`: prepend a character to the first (text) segment
of a split result, creating a singleton segment list if there is none. -/
def consHead (c : Char) : List (List Char) → List (List Char)
  | [] => [[c]]
  | t :: ts => (c :: t) :: ts

/-- Embedding of `re.split("(\r\n|\r|\n)", s)` over the decoded characters:
the separators are kept in the result, alternatives tried in the order
`\r\n`, `\r`, `\n` at each position (Python regex alternation is ordered). -/
def reSplit : List Char → List (List Char)
  | [] => [[]]
  | '\r' :: '\n' :: rest => [] :: ['\r', '\n'] :: reSplit rest
  | '\r' :: rest => [] :: ['\r'] :: reSplit rest
  | '\n' :: rest => [] :: ['\n'] :: reSplit rest
  | c :: rest => consHead c (reSplit rest)

/-- Predicate: a chunk is one of the three separators matched by the pattern
`(\r\n|\r|\n)`. -/
def IsSep (l : List Char) : Prop := l = ['\r', '\n'] ∨ l = ['\r'] ∨ l = ['\n']

/-- Predicate: a chunk is a text segment, i.e. contains no line terminator. -/
def IsText (l : List Char) : Prop := ∀ c ∈ l, c ≠ '\r' ∧ c ≠ '\n'

/-- Alternation invariant for the output of `re.split` with a captured
separator: text, sep, text, sep, ..., text (odd length, ends with text). -/
inductive Alt : List (List Char) → Prop
  | single (t : List Char) (ht : IsText t) : Alt [t]
  | cons (t sep : List Char) (rest : List (List Char)) (ht : IsText t) (hs : IsSep sep)
      (h : Alt rest) : Alt (t :: sep :: rest)

/-- Embedding of the worker's emission loop:
`for i in range(int(len(chunks) / 2)): callback(chunks[2*i] + chunks[2*i+1])`. -/
def emittedLines (chunks : List (List Char)) : List (List Char) :=
  (List.range (chunks.length / 2)).map fun i =>
    chunks.getD (2 * i) [] ++ chunks.getD (2 * i + 1) []

/-- Embedding of `buf = chunks[-1]`: the retained trailing partial line. -/
def newBuf (chunks : List (List Char)) : List Char :=
  chunks.getLastD []

/-- One iteration of the worker body on a nonempty decoded chunk `data` with
retained buffer `buf`: returns the lines passed to the callback and the new
buffer. -/
def captureStep (buf data : List Char) : List (List Char) × List Char :=
  let chunks := reSplit (buf ++ data)
  (emittedLines chunks, newBuf chunks)

/-- Embedding of the whole worker loop: process the successive nonempty reads,
then at end-of-stream (`raw_data` empty) flush a nonempty trailing buffer to
the callback once and terminate.  Returns the full sequence of callback
lines. -/
def captureRun (buf : List Char) : List (List Char) → List (List Char)
  | [] => if buf = [] then [] else [buf]
  | data :: rest =>
    let step := captureStep buf data
    step.1 ++ captureRun step.2 rest

/-! ## Application data model (src/modal/app.py)

Python strings are `String`, `None` is `none`; `str.startswith` is embedded as
a character-prefix test (`String.startsWith` itself does not reduce in the
kernel, but is extensionally the same check). -/

/-- Embedding of Python `s.startswith(pre)`. -/
def pyStartsWith (s pre : String) : Bool := pre.toList.isPrefixOf s.toList

/-- Python truth test on an optional string: `None` and `""` are falsy. -/
def pyFalsy : Option String → Bool
  | none => true
  | some s => s.isEmpty

/-- App lifecycle states (`modal._app_state.AppState`). -/
inductive AppState
  | none
  | starting
  | running
  | stopping
deriving DecidableEq

/-- Deployment namespaces from the protobuf enum `api_pb2.DeploymentNamespace`
(the two values used by src/modal/app.py); `account` is the default. -/
inductive DeploymentNamespace
  | account
  | global
deriving DecidableEq

/-- Embedding of `api_pb2.DeploymentNamespace.Name(namespace)`. -/
def DeploymentNamespace.protoName : DeploymentNamespace → String
  | .account => "DEPLOYMENT_NAMESPACE_ACCOUNT"
  | .global => "DEPLOYMENT_NAMESPACE_GLOBAL"

/-- A reference label (`modal.object.ref`): optional app name (non-null means
a different application), optional object label, and a namespace.  Field
`ns` embeds the Python attribute `namespace` (a Lean keyword). -/
structure ObjLabel where
  app_name : Option String
  object_label : Option String
  ns : DeploymentNamespace
deriving DecidableEq

/-- An object specification registered in the Blueprint, with the two
attributes the orchestrator inspects: whether it is a cross-app reference
(`label`) and whether it is a function (decided in the source by the
`_Function` class; carried here as a flag).  The embedded server-side
configuration and the progress-message hooks are out of scope (spec section
1: UI rendering is an external collaborator). -/
structure Spec where
  isFunction : Bool
  label : Option ObjLabel
deriving DecidableEq

/-- Exceptions raised by src/modal/app.py, one constructor per `raise` site
relevant to the claims.  `invalidNoLabel`/`invalidMalformed` are the two
`InvalidError`s of `lookup`, `invalidDeployName` the `InvalidError` of
`deploy`, `invalidState` the wrong-state errors of `_run`/`deploy`,
`notFound` the `NotFoundError` of `_include` (carrying its message),
`mismatch`/`nullId` the two `Exception`s of `_create_object`, `keyError` the
dict miss in `lookup`, and `assertFailed` the `assert object_id`. -/
inductive AppError
  | invalidNoLabel
  | invalidMalformed
  | invalidDeployName
  | invalidState (st : AppState)
  | notFound (msg : String)
  | mismatch (existingId : String) (newId : Option String)
  | nullId
  | keyError (tag : String)
  | assertFailed
deriving DecidableEq

/-! ## Reference resolution: `_App._include` and `_App.lookup` -/

/-- Embedding of the `obj_repr` composition in `_App._include`: the app name,
then `"." + object_label` when the label is present (`is not None`), then the
namespace when it is not the default account namespace. -/
def includeObjRepr (name : String) (object_label : Option String)
    (ns : DeploymentNamespace) : String :=
  let r := name
  let r := match object_label with
    | some lbl => r ++ "." ++ lbl
    | none => r
  if ns ≠ DeploymentNamespace.account then
    r ++ " (namespace " ++ ns.protoName ++ ")"
  else r

/-- Embedding of `_App._include`.  The backend's `AppIncludeObject` response
is passed in as `responseId` (a protobuf string field, empty when the object
does not exist); an empty id raises `NotFoundError` with the composed
message. -/
def appInclude (responseId : String) (name : String) (object_label : Option String)
    (ns : DeploymentNamespace) : Except AppError String :=
  if responseId.isEmpty then
    Except.error (AppError.notFound ("Could not find object " ++ includeObjRepr name object_label ns))
  else Except.ok responseId

/-- Embedding of `_App.lookup`.  `includeBackend` models the backend's
`AppIncludeObject` response for a given request, `tagToObject` the App's
live-object map `self._tag_to_object` (tag to object id), and `label` the
`obj.label` attribute of the Ref being looked up. -/
def lookupRef (includeBackend : String → Option String → DeploymentNamespace → String)
    (tagToObject : String → Option String)
    (label : Option ObjLabel) : Except AppError String := do
  match label with
  | none => Except.error AppError.invalidNoLabel
  | some lbl =>
    if pyFalsy lbl.app_name && pyFalsy lbl.object_label then
      Except.error AppError.invalidMalformed
    else
      let object_id ←
        match lbl.app_name with
        | some name =>
          appInclude (includeBackend name lbl.object_label lbl.ns) name lbl.object_label lbl.ns
        | none =>
          match tagToObject (lbl.object_label.getD "") with
          | none => Except.error (AppError.keyError (lbl.object_label.getD ""))
          | some oid => Except.ok oid
      if object_id.isEmpty then Except.error AppError.assertFailed
      else Except.ok object_id

/-! ## Object creation: `_App._create_object` -/

/-- Embedding of `_App._create_object`.  The two awaited external calls are
passed in as values: `includeResult` is the id returned by `_include` when
the spec is a cross-app reference, and `loadResult` the id returned by
`obj.load(self, existing_object_id)` otherwise (`none` models a Python
`None` return).  The progress-message rendering is elided (out-of-scope UI).
Mirrors the source: on the load path, when an existing id was requested and
the returned id differs, the run aborts unless the existing id has the
content-addressed image prefix `"im-"`; a `None` resulting id is fatal on
every path. -/
def createObject (label : Option ObjLabel) (includeResult : String)
    (loadResult : Option String) (existing_object_id : Option String) :
    Except AppError String := do
  let object_id : Option String ←
    match label with
    | some _ =>
      -- a different app: `object_id = await self._include(...)`
      Except.ok (some includeResult)
    | none =>
      -- `object_id = await obj.load(self, existing_object_id)` followed by
      -- the identity-reconciliation check
      if existing_object_id.isSome && (loadResult != existing_object_id) then
        if !(pyStartsWith (existing_object_id.getD "") "im-") then
          Except.error (AppError.mismatch (existing_object_id.getD "") loadResult)
        else Except.ok loadResult
      else Except.ok loadResult
  match object_id with
  | none => Except.error AppError.nullId
  | some oid => Except.ok oid

/-! ## Creation ordering: `_App._create_all_objects` -/

/-- Embedding of the tag ordering in `_App._create_all_objects`:
`tags.sort(key=lambda obj: obj.startswith("fu-"))`.  Python's sort is stable,
and on a Bool key a stable sort is exactly: all keys-False elements in
original order, then all keys-True elements in original order. -/
def creationOrder (blueprint : List (String × Spec)) : List String :=
  let tags := blueprint.map Prod.fst
  tags.filter (fun t => !pyStartsWith t "fu-") ++ tags.filter (fun t => pyStartsWith t "fu-")

/-! ## The App aggregate and the remote backend

The backend (spec section 6) is an external opaque service; it is modelled as
an executable state.  Identities are opaque strings (spec glossary); the model
generates fresh ones with an injective scheme, and — as the redeploy claim
presupposes — it preserves an identity that is passed back in as the existing
identity of an object. -/

/-- Fields of `_App` that the run/deploy state machine reads or writes.
`user_name` embeds `self._name`, `client` the client reference (by its client
id), `progress` the in-progress creation-tracking state `self._progress`
(a rich Tree in the source; only its presence matters). -/
structure AppS where
  app_id : Option String
  client : Option String
  user_name : Option String
  deployment_name : Option String
  state : AppState
  tag_to_object : List (String × String)
  tag_to_existing_id : List (String × String)
  blueprint : List (String × Spec)
  progress : Option Unit
deriving DecidableEq

/-- Embedding of the `name` property: `self._name or self._infer_app_name()`
(Python `or`: an unset or empty configured name falls back to the name
inferred from the command line, passed in as `inferred`). -/
def appNameProp (user_name : Option String) (inferred : String) : String :=
  match user_name with
  | some s => if s.isEmpty then inferred else s
  | none => inferred

/-- Embedding of `_App._infer_app_name`: the script file name joined with the
remaining command-line arguments. -/
def inferAppName (scriptFilename : String) (args : List String) : String :=
  String.intercalate " " (scriptFilename :: args)

/-- Fresh application identity generated by the modelled backend for
`AppCreate`; an opaque string, injective in the creation counter. -/
def freshAppId (n : Nat) : String :=
  String.mk ('a' :: 'p' :: '-' :: List.replicate n 'x')

/-- Fresh object identity generated by the modelled backend for an object
`load`; an opaque string, injective in the creation counter. -/
def freshObjId (n : Nat) : String :=
  String.mk ('o' :: 'b' :: '-' :: List.replicate n 'x')

/-- Executable model of the remote backend state: two freshness counters, the
deployment-name registry (`AppDeploy`) and the per-application published
object maps (`AppSetObjects`).  Newest entries are consed in front and
`List.lookup` returns the first match. -/
structure Servicer where
  n_app_ids : Nat
  n_obj_ids : Nat
  deployed_apps : List (String × String)
  app_objects : List (String × List (String × String))
deriving DecidableEq

/-- Initial backend state: nothing deployed, nothing created. -/
def Servicer.init : Servicer := ⟨0, 0, [], []⟩

/-- Backend `AppCreate`: returns a fresh application identity. -/
def Servicer.appCreate (sv : Servicer) : String × Servicer :=
  (freshAppId sv.n_app_ids, { sv with n_app_ids := sv.n_app_ids + 1 })

/-- Backend `AppGetByDeploymentName`: the application identity previously
deployed under a name, if any (`app_resp.app_id or None`). -/
def Servicer.appGetByDeploymentName (sv : Servicer) (name : String) : Option String :=
  List.lookup name sv.deployed_apps

/-- Backend `AppGetObjects`: the tag-to-identity map last published for an
application (empty when none was). -/
def Servicer.appGetObjects (sv : Servicer) (app_id : String) : List (String × String) :=
  (List.lookup app_id sv.app_objects).getD []

/-- Backend object creation (`obj.load(self, existing_object_id)`): when an
existing identity is supplied the backend preserves it (the premise of the
redeploy-idempotence contract); otherwise it assigns a fresh identity. -/
def Servicer.load (sv : Servicer) (existing : Option String) : String × Servicer :=
  match existing with
  | some e => (e, sv)
  | none => (freshObjId sv.n_obj_ids, { sv with n_obj_ids := sv.n_obj_ids + 1 })

/-- Backend `AppIncludeObject`: resolve (app name, label) to the identity
published for that deployment; the protobuf response field is `""` when the
deployment or label does not exist.  A `none` label means the app's fallback
object, which this model does not populate. -/
def Servicer.includeObject (sv : Servicer) (name : String) (object_label : Option String)
    (_ns : DeploymentNamespace) : String :=
  match List.lookup name sv.deployed_apps with
  | none => ""
  | some aid =>
    match object_label with
    | none => ""
    | some lbl => (List.lookup lbl (sv.appGetObjects aid)).getD ""

/-- Backend `AppSetObjects`: record the published tag-to-identity map. -/
def Servicer.appSetObjects (sv : Servicer) (app_id : String)
    (object_ids : List (String × String)) : Servicer :=
  { sv with app_objects := (app_id, object_ids) :: sv.app_objects }

/-- Backend `AppDeploy`: bind the deployment name to the application id. -/
def Servicer.appDeploy (sv : Servicer) (app_id name : String) : Servicer :=
  { sv with deployed_apps := (name, app_id) :: sv.deployed_apps }

/-! ## The run state machine: `_App._run` -/

/-- Observable events of a run, in program order: the backend calls issued by
the orchestrator, its state transitions, and the final field reset of the
cleanup block. -/
inductive Event
  | appGetByDeploymentName (name : String)
  | appGetObjects (app_id : String)
  | appCreate (name : String)
  | createObject (tag object_id : String)
  | appSetObjects (app_id : String) (object_ids : List (String × String))
  | stateTransition (st : AppState)
  | appDeploy (app_id name : String)
  | appClientDisconnect (app_id : String)
  | resetFields
deriving DecidableEq

/-- How the caller's workload body (step 7, the code inside the `yield`)
exits: normal return, an exception raised inside the body, or cancellation of
the task. -/
inductive Outcome
  | normal
  | exception
  | cancelled
deriving DecidableEq

/-- Embedding of the loop body of `_App._create_all_objects` over the sorted
tag list: look the tag up in the Blueprint and in `_tag_to_existing_id`, call
`_create_object` (consulting the backend's include response on the reference
path and its `load` on the creation path), record the new live object, and
abort on the first error, keeping the partially updated state and events. -/
def createLoop : List String → AppS → Servicer → List Event →
    (AppS × Servicer × List Event) × Option AppError
  | [], app, sv, evs => ((app, sv, evs), none)
  | tag :: rest, app, sv, evs =>
    let spec := (List.lookup tag app.blueprint).getD ⟨false, none⟩
    let existing := List.lookup tag app.tag_to_existing_id
    match spec.label with
    | some lbl =>
      match createObject spec.label
          (sv.includeObject (lbl.app_name.getD "") lbl.object_label lbl.ns)
          none existing with
      | Except.error e => ((app, sv, evs), some e)
      | Except.ok oid =>
        -- `_include` itself raises NotFoundError on an empty response id
        if oid.isEmpty then
          ((app, sv, evs),
            some (AppError.notFound ("Could not find object " ++
              includeObjRepr (lbl.app_name.getD "") lbl.object_label lbl.ns)))
        else
          createLoop rest { app with tag_to_object := app.tag_to_object ++ [(tag, oid)] }
            sv (evs ++ [Event.createObject tag oid])
    | none =>
      let load := sv.load existing
      match createObject spec.label "" (some load.1) existing with
      | Except.error e => ((app, load.2, evs), some e)
      | Except.ok oid =>
        createLoop rest { app with tag_to_object := app.tag_to_object ++ [(tag, oid)] }
          load.2 (evs ++ [Event.createObject tag oid])

/-- Embedding of the cleanup assignments in the outer `finally` of
`_App._run`: reset the client reference, the lifecycle state, the progress
tracking state, and the live-object map — and nothing else. -/
def resetApp (app : AppS) : AppS :=
  { app with client := none, state := AppState.none, progress := none, tag_to_object := [] }

/-- Exit status of `_run` as seen by its caller. -/
inductive RunExit
  | ok
  | appFailure (e : AppError)
  | reraised (o : Outcome)
deriving DecidableEq

/-- Result of a run: the App and backend after it, the event trace, and how
it exited. -/
structure RunResult where
  app : AppS
  sv : Servicer
  events : List Event
  exit : RunExit
deriving DecidableEq

/-- Embedding of `_App._run`.  `client_id` is the connected client,
`inferred` the command-line-inferred app name, `existing_app_id` the prior
application identity when resuming a deployment, `workload` the caller's body
run at the `yield` (it may issue its own backend calls, modelled as a state
update plus events), and `outcome` how that body exits.  The log-streaming
task and the output manager are out-of-scope UI and produce no events here.
Mirrors the source's two nested `try`/`finally` blocks: any exit of the inner
block issues `AppClientDisconnect`, then the outer `finally` resets the App
fields. -/
def runApp (app : AppS) (sv : Servicer) (client_id : String) (inferred : String)
    (existing_app_id : Option String)
    (workload : AppS → Servicer → Servicer × List Event)
    (outcome : Outcome) : RunResult :=
  if app.state ≠ AppState.none then
    -- raised before the try: no cleanup, nothing mutated
    { app := app, sv := sv, events := [], exit := RunExit.appFailure (AppError.invalidState app.state) }
  else
    let app1 := { app with state := AppState.starting, client := some client_id }
    -- acquire an application identity (resume or fresh)
    let acq : AppS × Servicer × List Event :=
      match existing_app_id with
      | some eid =>
        ({ app1 with tag_to_existing_id := sv.appGetObjects eid, app_id := some eid }, sv,
          [Event.appGetObjects eid])
      | none =>
        let c := sv.appCreate
        ({ app1 with tag_to_existing_id := [], app_id := some c.1 }, c.2,
          [Event.appCreate (appNameProp app.user_name inferred)])
    let app2 := { acq.1 with progress := some () }
    let aid := app2.app_id.getD ""
    match createLoop (creationOrder app2.blueprint) app2 acq.2.1 [] with
    | ((app3, sv3, evs2), some e) =>
      -- creation failed inside the inner try: disconnect, then reset
      { app := resetApp app3, sv := sv3,
        events := acq.2.2 ++ evs2 ++ [Event.appClientDisconnect aid, Event.resetFields],
        exit := RunExit.appFailure e }
    | ((app3, sv3, evs2), none) =>
      -- publish the full tag-to-identity map, then transition to RUNNING
      let object_ids := app3.tag_to_object
      let sv4 := sv3.appSetObjects aid object_ids
      let app4 := { app3 with state := AppState.running }
      -- yield to the caller's workload
      let w := workload app4 sv4
      -- a normal return transitions to STOPPING; exception/cancellation skip it
      let stepStop : AppS × List Event :=
        match outcome with
        | Outcome.normal => ({ app4 with state := AppState.stopping },
            [Event.stateTransition AppState.stopping])
        | _ => (app4, [])
      { app := resetApp stepStop.1, sv := w.1,
        events := acq.2.2 ++ evs2 ++
          [Event.appSetObjects aid object_ids, Event.stateTransition AppState.running] ++
          w.2 ++ stepStop.2 ++ [Event.appClientDisconnect aid, Event.resetFields],
        exit := match outcome with
          | Outcome.normal => RunExit.ok
          | o => RunExit.reraised o }

/-! ## Deployment: `_App.deploy` -/

/-- Embedding of the deployment-name resolution at the top of `_App.deploy`:
`if name is None: name = self.name` followed by
`if name is None: raise InvalidError(...)`.  `self.name` is the property
`self._name or self._infer_app_name()`, a string. -/
def resolveDeployName (nameArg : Option String) (user_name : Option String)
    (inferred : String) : Except AppError String :=
  let name : Option String :=
    match nameArg with
    | none => some (appNameProp user_name inferred)
    | some n => some n
  match name with
  | none => Except.error AppError.invalidDeployName
  | some n => Except.ok n

/-- Result of a deploy: final App and backend state, the event trace, and the
returned application identity (or the propagated error). -/
structure DeployResult where
  app : AppS
  sv : Servicer
  events : List Event
  ret : Except AppError String

/-- Embedding of `_App.deploy`: forbidden unless the state is NONE, resolve
the deployment name, look up any existing deployment under it, run the
state machine seeded with that identity with a workload that issues
`AppDeploy`, and return `self._app_id` after the run context has closed. -/
def deployApp (app : AppS) (sv : Servicer) (nameArg : Option String)
    (inferred : String) (client_id : String) : DeployResult :=
  if app.state ≠ AppState.none then
    { app := app, sv := sv, events := [],
      ret := Except.error (AppError.invalidState app.state) }
  else
    match resolveDeployName nameArg app.user_name inferred with
    | Except.error e => { app := app, sv := sv, events := [], ret := Except.error e }
    | Except.ok name =>
      let app' := { app with deployment_name := some name }
      let existing_app_id := sv.appGetByDeploymentName name
      let r := runApp app' sv client_id inferred existing_app_id
        (fun a s => (s.appDeploy (a.app_id.getD "") name,
          [Event.appDeploy (a.app_id.getD "") name]))
        Outcome.normal
      { app := r.app, sv := r.sv,
        events := Event.appGetByDeploymentName name :: r.events,
        ret := match r.exit with
          | RunExit.ok => Except.ok (r.app.app_id.getD "")
          | RunExit.appFailure e => Except.error e
          -- unreachable: the deploy workload exits normally
          | RunExit.reraised _ => Except.error AppError.assertFailed }

/-- Fresh App as constructed by `_App.__init__` with a given configured name
and an already-registered Blueprint. -/
def mkApp (user_name : Option String) (blueprint : List (String × Spec)) : AppS :=
  { app_id := none, client := none, user_name := user_name, deployment_name := none,
    state := AppState.none, tag_to_object := [], tag_to_existing_id := [],
    blueprint := blueprint, progress := none }

/-! ## Theorems: stream capture -/

lemma isText_nil : IsText [] := by
  intro c hc
  cases hc

lemma isText_cons {c : Char} {t : List Char} (hc1 : c ≠ '\r') (hc2 : c ≠ '\n')
    (ht : IsText t) : IsText (c :: t) := by
  intro d hd
  rcases List.mem_cons.mp hd with h | h
  · subst h; exact ⟨hc1, hc2⟩
  · exact ht d h

lemma alt_consHead {c : Char} (hc1 : c ≠ '\r') (hc2 : c ≠ '\n')
    {l : List (List Char)} (h : Alt l) : Alt (consHead c l) := by
  cases h with
  | single t ht => exact Alt.single (c :: t) (isText_cons hc1 hc2 ht)
  | cons t sep rest ht hs hr => exact Alt.cons (c :: t) sep rest (isText_cons hc1 hc2 ht) hs hr

/-- The split of any decoded buffer satisfies the alternation invariant. -/
lemma alt_reSplit (s : List Char) : Alt (reSplit s) := by
  induction s using reSplit.induct with
  | case1 => exact Alt.single [] isText_nil
  | case2 rest ih =>
    simp only [reSplit]
    exact Alt.cons [] ['\r', '\n'] _ isText_nil (Or.inl rfl) ih
  | case3 rest hno ih =>
    rw [show reSplit ('\r' :: rest) = [] :: ['\r'] :: reSplit rest from by
      cases rest with
      | nil => rfl
      | cons d rest2 =>
        by_cases hd : d = '\n'
        · exact absurd rfl (by subst hd; exact fun h => hno rest2 h)
        · simp [reSplit, hd]]
    exact Alt.cons [] ['\r'] _ isText_nil (Or.inr (Or.inl rfl)) ih
  | case4 rest ih =>
    simp only [reSplit]
    exact Alt.cons [] ['\n'] _ isText_nil (Or.inr (Or.inr rfl)) ih
  | case5 c rest h0 h1 h2 ih =>
    have hc1 : c ≠ '\r' := fun h => h1 h
    have hc2 : c ≠ '\n' := fun h => h2 h
    rw [show reSplit (c :: rest) = consHead c (reSplit rest) from by
      cases rest with
      | nil => simp [reSplit, consHead, hc1, hc2]
      | cons d rest2 =>
        by_cases hd : d = '\n'
        · subst hd; simp [reSplit, consHead, hc1, hc2]
        · simp [reSplit, consHead, hc1, hc2, hd]]
    exact alt_consHead hc1 hc2 ih

lemma Alt.length_odd {l : List (List Char)} (h : Alt l) : l.length % 2 = 1 := by
  induction h with
  | single t ht => rfl
  | cons t sep rest ht hs hr ih =>
    simp only [List.length_cons]
    omega

lemma Alt.get_spec {l : List (List Char)} (h : Alt l) :
    ∀ i (hi : i < l.length),
      (i % 2 = 0 → IsText (l.get ⟨i, hi⟩)) ∧ (i % 2 = 1 → IsSep (l.get ⟨i, hi⟩)) := by
  induction h with
  | single t ht =>
    intro i hi
    have hi0 : i = 0 := by simpa using Nat.lt_one_iff.mp (by simpa using hi)
    subst hi0
    exact ⟨fun _ => ht, fun h1 => by simp at h1⟩
  | cons t sep rest ht hs hr ih =>
    intro i hi
    match i with
    | 0 => exact ⟨fun _ => ht, fun h1 => by simp at h1⟩
    | 1 => exact ⟨fun h0 => by simp at h0, fun _ => hs⟩
    | (j + 2) =>
      have hj : j < rest.length := by
        simpa [Nat.succ_lt_succ_iff] using hi
      have := ih j hj
      constructor
      · intro h0
        exact (this.1 (by omega))
      · intro h1
        exact (this.2 (by omega))

lemma emittedLines_mem {chunks : List (List Char)} {line : List Char}
    (hmem : line ∈ emittedLines chunks) :
    ∃ i, i < chunks.length / 2 ∧ line = chunks.getD (2 * i) [] ++ chunks.getD (2 * i + 1) [] := by
  rcases List.mem_map.mp hmem with ⟨i, hi, hline⟩
  exact ⟨i, List.mem_range.mp hi, hline.symm⟩

lemma getD_eq_get {l : List (List Char)} {i : Nat} (hi : i < l.length) :
    l.getD i [] = l.get ⟨i, hi⟩ := by
  simp [List.getD_eq_getElem?_getD, List.getElem?_eq_getElem hi]

/-- Claim C9: splitting any decoded buffer on the captured separator pattern
yields an odd-length list alternating text segments (even positions) and
separators (odd positions); hence the worker's emission loop indexes
`chunks[2*i]` and `chunks[2*i+1]` in bounds, the retained `chunks[-1]` is
defined, and every line handed to the callback is a text segment concatenated
with its own terminator. -/
theorem reSplit_loop_safety (s : List Char) :
    (reSplit s).length % 2 = 1 ∧
    (∀ i (hi : i < (reSplit s).length),
      (i % 2 = 0 → IsText ((reSplit s).get ⟨i, hi⟩)) ∧
      (i % 2 = 1 → IsSep ((reSplit s).get ⟨i, hi⟩))) ∧
    (∀ i, i < (reSplit s).length / 2 → 2 * i + 1 < (reSplit s).length) ∧
    0 < (reSplit s).length ∧
    (∀ line ∈ emittedLines (reSplit s), ∃ t sep, IsText t ∧ IsSep sep ∧ line = t ++ sep) := by
  have halt := alt_reSplit s
  have hodd := halt.length_odd
  have hget := halt.get_spec
  refine ⟨hodd, hget, fun i hi => by omega, by omega, ?_⟩
  intro line hline
  rcases emittedLines_mem hline with ⟨i, hi, hline'⟩
  have h1 : 2 * i < (reSplit s).length := by omega
  have h2 : 2 * i + 1 < (reSplit s).length := by omega
  refine ⟨(reSplit s).get ⟨2 * i, h1⟩, (reSplit s).get ⟨2 * i + 1, h2⟩, ?_, ?_, ?_⟩
  · exact (hget (2 * i) h1).1 (by omega)
  · exact (hget (2 * i + 1) h2).2 (by omega)
  · rw [hline', getD_eq_get h1, getD_eq_get h2]

/-- Concrete instantiation of `reSplit_loop_safety` on the buffer `"ab\ncd"`,
with its quantifiers and hypotheses discharged. -/
theorem reSplit_loop_safety_witness :
    IsText ((reSplit "ab\ncd".toList).get ⟨0, by decide⟩) ∧
    IsSep ((reSplit "ab\ncd".toList).get ⟨1, by decide⟩) ∧
    2 * 0 + 1 < (reSplit "ab\ncd".toList).length :=
  ⟨((reSplit_loop_safety "ab\ncd".toList).2.1 0 (by decide)).1 (by decide),
   ((reSplit_loop_safety "ab\ncd".toList).2.1 1 (by decide)).2 (by decide),
   (reSplit_loop_safety "ab\ncd".toList).2.2.1 0 (by decide)⟩

/-- Claim C6: feeding the byte sequence `"abc\ndef\r\nghi"` (no trailing
terminator) to the capture worker produces callback invocations with exactly
`"abc\n"` then `"def\r\n"`, and on end-of-stream the non-empty trailing
partial line `"ghi"` is flushed to the callback exactly once. -/
theorem capture_round_trip :
    captureRun [] ["abc\ndef\r\nghi".toList] =
      ["abc\n".toList, "def\r\n".toList, "ghi".toList] := by
  decide

/-! ## Theorems: object creation identity checks (`_create_object`) -/

/-- Claim C4: for a non-reference object created with a non-null existing
identity, a creation call returning a different identity aborts the run with
a fatal exception, unless the existing identity carries the content-addressed
image prefix `"im-"`, in which case the mismatch is tolerated silently and
the new identity is returned; a null resulting identity is fatal for every
object kind. -/
theorem create_object_identity_checks (inc e i : String) (hne : i ≠ e) :
    (pyStartsWith e "im-" = false →
      createObject none inc (some i) (some e) =
        Except.error (AppError.mismatch e (some i))) ∧
    (pyStartsWith e "im-" = true →
      createObject none inc (some i) (some e) = Except.ok i) ∧
    (∀ existing : Option String, ∃ err,
      createObject none inc none existing = Except.error err) := by
  have hbeq : ((some i : Option String) == some e) = false := by
    simp [hne]
  refine ⟨fun him => ?_, fun him => ?_, fun existing => ?_⟩
  · simp [createObject, hbeq, him, hne, bind, Except.bind]
  · simp [createObject, hbeq, him, hne, bind, Except.bind]
  · cases existing with
    | none => exact ⟨AppError.nullId, by simp [createObject, bind, Except.bind]⟩
    | some e' =>
      by_cases him : pyStartsWith e' "im-"
      · exact ⟨AppError.nullId, by simp [createObject, him, bind, Except.bind]⟩
      · exact ⟨AppError.mismatch e' none, by simp [createObject, him, bind, Except.bind]⟩

/-- Concrete instantiation of `create_object_identity_checks`: requesting
existing id `"qu-1"` but getting `"qu-2"` back is a fatal mismatch. -/
theorem create_object_identity_checks_witness :
    createObject none "xx" (some "qu-2") (some "qu-1") =
      Except.error (AppError.mismatch "qu-1" (some "qu-2")) :=
  (create_object_identity_checks "xx" "qu-1" "qu-2" (by decide)).1 (by decide)

/-! ## Theorems: reference resolution (`lookup` / `_include`) -/

/-- Claim C5: a reference with neither an app name nor a label is rejected
with an InvalidError at resolution time; a reference naming a remote
application/object for which the backend's include request returns no
identity fails with a NotFoundError whose message is composed from the app
name, the label when present, and the namespace when it is not the default
account namespace. -/
theorem lookup_resolution_errors
    (includeBackend : String → Option String → DeploymentNamespace → String)
    (tagToObject : String → Option String)
    (name : String) (lbl : Option String) (ns : DeploymentNamespace)
    (hname : name.isEmpty = false)
    (hmiss : includeBackend name lbl ns = "") :
    lookupRef includeBackend tagToObject (some ⟨none, none, ns⟩) =
      Except.error AppError.invalidMalformed ∧
    lookupRef includeBackend tagToObject (some ⟨some name, lbl, ns⟩) =
      Except.error (AppError.notFound ("Could not find object " ++ name ++
        (match lbl with | some l => "." ++ l | none => "") ++
        (if ns ≠ DeploymentNamespace.account then
          " (namespace " ++ ns.protoName ++ ")" else ""))) := by
  constructor
  · simp [lookupRef, pyFalsy]
  · cases lbl with
    | none =>
      cases ns <;>
        simp [lookupRef, pyFalsy, hname, appInclude, hmiss, includeObjRepr,
          DeploymentNamespace.protoName, String.append_assoc, bind, Except.bind,
          show ("" : String).isEmpty = true from rfl]
    | some l =>
      cases ns <;>
        simp [lookupRef, pyFalsy, hname, appInclude, hmiss, includeObjRepr,
          DeploymentNamespace.protoName, String.append_assoc, bind, Except.bind,
          show ("" : String).isEmpty = true from rfl]

/-- Concrete instantiation of `lookup_resolution_errors`: looking up
`my-queue.q` in the global namespace against a backend with no such object. -/
theorem lookup_resolution_errors_witness :
    lookupRef (fun _ _ _ => "") (fun _ => none)
        (some ⟨some "my-queue", some "q", DeploymentNamespace.global⟩) =
      Except.error (AppError.notFound
        "Could not find object my-queue.q (namespace DEPLOYMENT_NAMESPACE_GLOBAL)") :=
  (lookup_resolution_errors (fun _ _ _ => "") (fun _ => none) "my-queue" (some "q")
    DeploymentNamespace.global (by decide) rfl).2

/-! ## Theorems: deployment name resolution (`deploy`) -/

/-- Counterexample to claim C7 as stated: a deploy with no explicit name
argument and no configured App name does not fail with an InvalidError — it
resolves to the command-line-inferred name (the `name` property is
`self._name or self._infer_app_name()`, which is always a string, so the
`if name is None: raise InvalidError` guard is unreachable) and reaches the
backend, deploying under the inferred name. -/
theorem deploy_name_fallback_counterexample :
    resolveDeployName none none "script.py" = Except.ok "script.py" ∧
    (deployApp (mkApp none []) Servicer.init none "script.py" "cl-1").ret =
      Except.ok "ap-" ∧
    (deployApp (mkApp none []) Servicer.init none "script.py" "cl-1").sv.deployed_apps =
      [("script.py", "ap-")] :=
  ⟨rfl, rfl, rfl⟩

/-- Claim C7 (amended): the effective deployment name is resolved as the
explicit name argument when given, otherwise the App's configured name when
set and non-empty, otherwise the name inferred from the invoking command
line; resolution always succeeds, so the fatal-InvalidError branch for an
unresolvable name is unreachable. -/
theorem deploy_name_resolution (user_name : Option String) (inferred : String) :
    (∀ n, resolveDeployName (some n) user_name inferred = Except.ok n) ∧
    (∀ u, resolveDeployName none (some u) inferred =
      Except.ok (if u.isEmpty then inferred else u)) ∧
    resolveDeployName none none inferred = Except.ok inferred := by
  refine ⟨fun n => rfl, fun u => rfl, rfl⟩

/-! ## Theorems: creation ordering (`_create_all_objects`) -/

/-- Failing input for claim C1: a Blueprint registering a function under its
qualified-name tag (exactly the tag the repository's own test
`client_test/app_test.py::test_redeploy` observes for a registered function)
before a non-function object. -/
def funcFirstBlueprint : List (String × Spec) :=
  [("client_test.app_test.square", ⟨true, none⟩), ("zz_queue", ⟨false, none⟩)]

/-- Claim C1 evaluated at the failing input: the creation phase orders tags
by the tag prefix `"fu-"`, but a function's tag is its qualified name, so the
function object is created before the non-function object — contradicting
the claimed partition (and the source's own comment that functions are built
last). -/
theorem function_created_before_nonfunction :
    creationOrder funcFirstBlueprint =
      ["client_test.app_test.square", "zz_queue"] ∧
    List.lookup "client_test.app_test.square" funcFirstBlueprint =
      some ⟨true, none⟩ ∧
    List.lookup "zz_queue" funcFirstBlueprint = some ⟨false, none⟩ ∧
    (runApp (mkApp none funcFirstBlueprint) Servicer.init "cl-1" "inf" none
        (fun _ s => (s, [])) Outcome.normal).events =
      [Event.appCreate "inf",
       Event.createObject "client_test.app_test.square" (freshObjId 0),
       Event.createObject "zz_queue" (freshObjId 1),
       Event.appSetObjects (freshAppId 0)
         [("client_test.app_test.square", freshObjId 0), ("zz_queue", freshObjId 1)],
       Event.stateTransition AppState.running,
       Event.stateTransition AppState.stopping,
       Event.appClientDisconnect (freshAppId 0),
       Event.resetFields] := by
  decide

/-! ## Theorems: cleanup frame (`_run`, outer `finally`) -/

/-- Claim C10: the run cleanup block resets exactly the client reference, the
lifecycle state, the progress-tracking state and the live-object map; the
application identity, the user-supplied name, the deployment name, the
Blueprint and the existing-identity map are unchanged — which is what lets
`deploy` return `self._app_id` after its run context has closed. -/
theorem cleanup_frame (app : AppS) :
    (resetApp app).client = none ∧
    (resetApp app).state = AppState.none ∧
    (resetApp app).progress = none ∧
    (resetApp app).tag_to_object = [] ∧
    (resetApp app).app_id = app.app_id ∧
    (resetApp app).user_name = app.user_name ∧
    (resetApp app).deployment_name = app.deployment_name ∧
    (resetApp app).blueprint = app.blueprint ∧
    (resetApp app).tag_to_existing_id = app.tag_to_existing_id := by
  simp [resetApp]

/-! ## Helper lemmas: association lists and the creation loop -/

lemma lookup_mem {β : Type} {l : List (String × β)} {k : String} {v : β}
    (h : List.lookup k l = some v) : (k, v) ∈ l := by
  induction l with
  | nil => simp [List.lookup] at h
  | cons p rest ih =>
    obtain ⟨a, b⟩ := p
    by_cases hk : k = a
    · subst hk
      simp [List.lookup] at h
      simp [← h]
    · have hb : (k == a) = false := by simpa using hk
      simp only [List.lookup, hb] at h
      exact List.mem_cons_of_mem _ (ih h)

lemma blueprint_nolabel_lookup {app : AppS}
    (hbp : ∀ p ∈ app.blueprint, (Prod.snd p).label = none) (t : String) :
    ((List.lookup t app.blueprint).getD ⟨false, none⟩).label = none := by
  cases h : List.lookup t app.blueprint with
  | none => rfl
  | some s => exact hbp (t, s) (lookup_mem h)

/-- With the identity-preserving backend, `_create_object` on the
non-reference path always succeeds and returns the loaded id. -/
lemma createObject_load_preserving (sv : Servicer) (existing : Option String) :
    createObject none "" (some (sv.load existing).1) existing =
      Except.ok (sv.load existing).1 := by
  cases existing with
  | none => simp [createObject, Servicer.load, bind, Except.bind]
  | some e => simp [createObject, Servicer.load, bind, Except.bind]

/-- One step of the creation loop on a non-reference tag. -/
lemma createLoop_cons_nolabel (tag : String) (rest : List String) (app : AppS)
    (sv : Servicer) (evs : List Event)
    (hlbl : ((List.lookup tag app.blueprint).getD ⟨false, none⟩).label = none) :
    createLoop (tag :: rest) app sv evs =
      createLoop rest
        { app with tag_to_object := app.tag_to_object ++
            [(tag, (sv.load (List.lookup tag app.tag_to_existing_id)).1)] }
        (sv.load (List.lookup tag app.tag_to_existing_id)).2
        (evs ++ [Event.createObject tag
          (sv.load (List.lookup tag app.tag_to_existing_id)).1]) := by
  rw [createLoop]
  simp only [hlbl, createObject_load_preserving]

/-- On a Blueprint with no cross-app references, the creation loop never
fails, touches only the live-object map (and the backend), and emits only
object-creation events. -/
lemma createLoop_ok (tags : List String) (app : AppS) (sv : Servicer) (evs : List Event)
    (hbp : ∀ p ∈ app.blueprint, (Prod.snd p).label = none) :
    ∃ app' sv' evs',
      createLoop tags app sv evs = ((app', sv', evs ++ evs'), none) ∧
      app'.app_id = app.app_id ∧ app'.client = app.client ∧
      app'.user_name = app.user_name ∧ app'.deployment_name = app.deployment_name ∧
      app'.state = app.state ∧ app'.progress = app.progress ∧
      app'.blueprint = app.blueprint ∧ app'.tag_to_existing_id = app.tag_to_existing_id ∧
      (∀ e ∈ evs', ∃ t o, e = Event.createObject t o) := by
  induction tags generalizing app sv evs with
  | nil =>
    exact ⟨app, sv, [], by simp [createLoop], rfl, rfl, rfl, rfl, rfl, rfl, rfl, rfl, by simp⟩
  | cons tag rest ih =>
    rw [createLoop_cons_nolabel tag rest app sv evs (blueprint_nolabel_lookup hbp tag)]
    obtain ⟨app', sv', evs', heq, h1, h2, h3, h4, h5, h6, h7, h8, h9⟩ :=
      ih { app with tag_to_object := app.tag_to_object ++
            [(tag, (sv.load (List.lookup tag app.tag_to_existing_id)).1)] }
        (sv.load (List.lookup tag app.tag_to_existing_id)).2
        (evs ++ [Event.createObject tag (sv.load (List.lookup tag app.tag_to_existing_id)).1])
        (by simpa using hbp)
    refine ⟨app', sv',
      Event.createObject tag (sv.load (List.lookup tag app.tag_to_existing_id)).1 :: evs',
      ?_, h1, h2, h3, h4, h5, h6, h7, h8, ?_⟩
    · simpa using heq
    · intro e he
      rcases List.mem_cons.mp he with h | h
      · exact ⟨_, _, h⟩
      · exact h9 e h

/-- List bookkeeping: re-associate a trace around its two middle events. -/
lemma append_middle_eq {E : Type} (X W T D : List E) (s r : E) :
    (((X ++ [s, r]) ++ W) ++ T) ++ D = X ++ s :: r :: (W ++ T ++ D) := by
  simp [List.append_assoc]

/-! ## Theorems: cleanup on every workload exit (`_run`) -/

/-- Claim C2: for every run entered with state NONE (over a Blueprint without
cross-app references, so that the caller's workload is reached), on every
exit of the workload — normal return, exception, or cancellation — the
cleanup block first issues the backend Disconnect call for the acquired
application identity and then resets the App's client reference, its state
to NONE, its in-progress creation-tracking state, and its live-object map to
empty. -/
theorem run_cleanup_guarantee (app : AppS) (sv : Servicer) (client_id inferred : String)
    (existing_app_id : Option String)
    (workload : AppS → Servicer → Servicer × List Event) (outcome : Outcome)
    (h0 : app.state = AppState.none)
    (hbp : ∀ p ∈ app.blueprint, (Prod.snd p).label = none) :
    ∃ aid pre,
      (runApp app sv client_id inferred existing_app_id workload outcome).app.app_id = some aid ∧
      (runApp app sv client_id inferred existing_app_id workload outcome).events =
        pre ++ [Event.appClientDisconnect aid, Event.resetFields] ∧
      (runApp app sv client_id inferred existing_app_id workload outcome).app.client = none ∧
      (runApp app sv client_id inferred existing_app_id workload outcome).app.state =
        AppState.none ∧
      (runApp app sv client_id inferred existing_app_id workload outcome).app.progress = none ∧
      (runApp app sv client_id inferred existing_app_id workload outcome).app.tag_to_object
        = [] := by
  unfold runApp
  rw [if_neg (by simp [h0])]
  cases existing_app_id with
  | some eid =>
    obtain ⟨app', sv', evs', heq, h1, h2, h3, h4, h5, h6, h7, h8, h9⟩ :=
      createLoop_ok (creationOrder app.blueprint)
        { app with
          state := AppState.starting
          client := some client_id
          tag_to_existing_id := sv.appGetObjects eid
          app_id := some eid
          progress := some () } sv [] (by simpa using hbp)
    simp only [] at heq ⊢
    rw [heq]
    cases outcome <;>
      exact ⟨eid, _, by simp [resetApp, h1], rfl, by simp [resetApp],
        by simp [resetApp], by simp [resetApp], by simp [resetApp]⟩
  | none =>
    obtain ⟨app', sv', evs', heq, h1, h2, h3, h4, h5, h6, h7, h8, h9⟩ :=
      createLoop_ok (creationOrder app.blueprint)
        { app with
          state := AppState.starting
          client := some client_id
          tag_to_existing_id := []
          app_id := some (sv.appCreate).1
          progress := some () } (sv.appCreate).2 [] (by simpa using hbp)
    simp only [] at heq ⊢
    rw [heq]
    cases outcome <;>
      exact ⟨(sv.appCreate).1, _, by simp [resetApp, h1], rfl, by simp [resetApp],
        by simp [resetApp], by simp [resetApp], by simp [resetApp]⟩

/-- Concrete instantiation of `run_cleanup_guarantee`: a one-object app with
a workload that raises still disconnects and resets. -/
theorem run_cleanup_guarantee_witness :
    ∃ aid pre,
      (runApp (mkApp none [("t", ⟨false, none⟩)]) Servicer.init "cl" "inf" none
        (fun _ s => (s, [])) Outcome.exception).app.app_id = some aid ∧
      (runApp (mkApp none [("t", ⟨false, none⟩)]) Servicer.init "cl" "inf" none
        (fun _ s => (s, [])) Outcome.exception).events =
        pre ++ [Event.appClientDisconnect aid, Event.resetFields] ∧
      (runApp (mkApp none [("t", ⟨false, none⟩)]) Servicer.init "cl" "inf" none
        (fun _ s => (s, [])) Outcome.exception).app.client = none ∧
      (runApp (mkApp none [("t", ⟨false, none⟩)]) Servicer.init "cl" "inf" none
        (fun _ s => (s, [])) Outcome.exception).app.state = AppState.none ∧
      (runApp (mkApp none [("t", ⟨false, none⟩)]) Servicer.init "cl" "inf" none
        (fun _ s => (s, [])) Outcome.exception).app.progress = none ∧
      (runApp (mkApp none [("t", ⟨false, none⟩)]) Servicer.init "cl" "inf" none
        (fun _ s => (s, [])) Outcome.exception).app.tag_to_object = [] :=
  run_cleanup_guarantee (mkApp none [("t", ⟨false, none⟩)]) Servicer.init "cl" "inf" none
    (fun _ s => (s, [])) Outcome.exception rfl (by decide)

/-! ## Theorems: publish ordering (`_run`, step 6) -/

/-- Claim C8: in every run (state NONE, reference-free Blueprint, a workload
that issues no orchestrator-reserved events), the publish-object-map call
carrying the full tag-to-identity map is issued after every object creation
has completed and the transition to RUNNING happens only after the publish
call: the trace decomposes around the unique publish event, immediately
followed by the RUNNING transition, with no creation event after it. -/
theorem publish_after_create_before_running (app : AppS) (sv : Servicer)
    (client_id inferred : String) (existing_app_id : Option String)
    (workload : AppS → Servicer → Servicer × List Event) (outcome : Outcome)
    (h0 : app.state = AppState.none)
    (hbp : ∀ p ∈ app.blueprint, (Prod.snd p).label = none)
    (hW : ∀ a s, ∀ e ∈ (workload a s).2,
      (∀ t o, e ≠ Event.createObject t o) ∧
      (∀ a2 m, e ≠ Event.appSetObjects a2 m) ∧
      (∀ st, e ≠ Event.stateTransition st)) :
    ∃ A B aid m,
      (runApp app sv client_id inferred existing_app_id workload outcome).events =
        A ++ Event.appSetObjects aid m ::
          Event.stateTransition AppState.running :: B ∧
      (∀ t o, Event.createObject t o ∉ B) ∧
      (∀ a2 m2, Event.appSetObjects a2 m2 ∉ A) ∧
      (∀ a2 m2, Event.appSetObjects a2 m2 ∉ B) ∧
      Event.stateTransition AppState.running ∉ A := by
  unfold runApp
  rw [if_neg (by simp [h0])]
  cases existing_app_id with
  | some eid =>
    obtain ⟨app', sv', evs', heq, h1, h2, h3, h4, h5, h6, h7, h8, h9⟩ :=
      createLoop_ok (creationOrder app.blueprint)
        { app with
          state := AppState.starting
          client := some client_id
          tag_to_existing_id := sv.appGetObjects eid
          app_id := some eid
          progress := some () } sv [] (by simpa using hbp)
    simp only [] at heq ⊢
    rw [heq]
    refine ⟨_, _, _, _, append_middle_eq _ _ _ _ _ _, ?_, ?_, ?_, ?_⟩
    · intro t o hmem
      rcases List.mem_append.mp hmem with hwt | hd
      · rcases List.mem_append.mp hwt with hw | ht
        · exact ((hW _ _ _ hw).1 t o) rfl
        · cases outcome <;> simp at ht
      · simp at hd
    · intro a2 m2 hmem
      rcases List.mem_append.mp hmem with ha | he
      · simp at ha
      · obtain ⟨t, o, heq⟩ := h9 _ (by simpa using he)
        simp at heq
    · intro a2 m2 hmem
      rcases List.mem_append.mp hmem with hwt | hd
      · rcases List.mem_append.mp hwt with hw | ht
        · exact ((hW _ _ _ hw).2.1 a2 m2) rfl
        · cases outcome <;> simp at ht
      · simp at hd
    · intro hmem
      rcases List.mem_append.mp hmem with ha | he
      · simp at ha
      · obtain ⟨t, o, heq⟩ := h9 _ (by simpa using he)
        simp at heq
  | none =>
    obtain ⟨app', sv', evs', heq, h1, h2, h3, h4, h5, h6, h7, h8, h9⟩ :=
      createLoop_ok (creationOrder app.blueprint)
        { app with
          state := AppState.starting
          client := some client_id
          tag_to_existing_id := []
          app_id := some (sv.appCreate).1
          progress := some () } (sv.appCreate).2 [] (by simpa using hbp)
    simp only [] at heq ⊢
    rw [heq]
    refine ⟨_, _, _, _, append_middle_eq _ _ _ _ _ _, ?_, ?_, ?_, ?_⟩
    · intro t o hmem
      rcases List.mem_append.mp hmem with hwt | hd
      · rcases List.mem_append.mp hwt with hw | ht
        · exact ((hW _ _ _ hw).1 t o) rfl
        · cases outcome <;> simp at ht
      · simp at hd
    · intro a2 m2 hmem
      rcases List.mem_append.mp hmem with ha | he
      · simp at ha
      · obtain ⟨t, o, heq⟩ := h9 _ (by simpa using he)
        simp at heq
    · intro a2 m2 hmem
      rcases List.mem_append.mp hmem with hwt | hd
      · rcases List.mem_append.mp hwt with hw | ht
        · exact ((hW _ _ _ hw).2.1 a2 m2) rfl
        · cases outcome <;> simp at ht
      · simp at hd
    · intro hmem
      rcases List.mem_append.mp hmem with ha | he
      · simp at ha
      · obtain ⟨t, o, heq⟩ := h9 _ (by simpa using he)
        simp at heq

/-- Concrete instantiation of `publish_after_create_before_running` on a
one-object app with a trivial workload. -/
theorem publish_after_create_before_running_witness :
    ∃ A B aid m,
      (runApp (mkApp none [("t", ⟨false, none⟩)]) Servicer.init "cl" "inf" none
        (fun _ s => (s, [])) Outcome.normal).events =
        A ++ Event.appSetObjects aid m ::
          Event.stateTransition AppState.running :: B ∧
      (∀ t o, Event.createObject t o ∉ B) ∧
      (∀ a2 m2, Event.appSetObjects a2 m2 ∉ A) ∧
      (∀ a2 m2, Event.appSetObjects a2 m2 ∉ B) ∧
      Event.stateTransition AppState.running ∉ A :=
  publish_after_create_before_running (mkApp none [("t", ⟨false, none⟩)]) Servicer.init
    "cl" "inf" none (fun _ s => (s, [])) Outcome.normal rfl (by decide)
    (by intro a s e he; simp at he)

/-! ## Helper lemmas: fresh identities and full creation-loop computation -/

/-- The association of fresh identities the modelled backend assigns to a tag
list starting at counter `n`. -/
def freshAssign : List String → Nat → List (String × String)
  | [], _ => []
  | t :: ts, n => (t, freshObjId n) :: freshAssign ts (n + 1)

lemma freshObjId_inj {a b : Nat} (h : freshObjId a = freshObjId b) : a = b := by
  have h2 := congrArg (fun s => s.data.length) h
  simp [freshObjId] at h2
  omega

lemma freshAppId_inj {a b : Nat} (h : freshAppId a = freshAppId b) : a = b := by
  have h2 := congrArg (fun s => s.data.length) h
  simp [freshAppId] at h2
  omega

lemma lookup_freshAssign_self (tags : List String) (hn : tags.Nodup) (n : Nat) :
    tags.map (fun t => (t, (List.lookup t (freshAssign tags n)).getD "")) =
      freshAssign tags n := by
  induction tags generalizing n with
  | nil => rfl
  | cons t ts ih =>
    obtain ⟨hnt, hnd⟩ := List.nodup_cons.mp hn
    have hmapeq : ts.map
        (fun u => (u, (List.lookup u (freshAssign (t :: ts) n)).getD "")) =
        ts.map (fun u => (u, (List.lookup u (freshAssign ts (n + 1))).getD "")) :=
      List.map_congr_left (fun u hu => by
        have hne : (u == t) = false := beq_eq_false_iff_ne.mpr (fun h => hnt (h ▸ hu))
        simp [freshAssign, List.lookup, hne])
    calc (t :: ts).map (fun u => (u, (List.lookup u (freshAssign (t :: ts) n)).getD ""))
        = (t, (List.lookup t (freshAssign (t :: ts) n)).getD "") ::
            ts.map (fun u => (u, (List.lookup u (freshAssign (t :: ts) n)).getD "")) := rfl
      _ = (t, freshObjId n) ::
            ts.map (fun u => (u, (List.lookup u (freshAssign ts (n + 1))).getD "")) := by
            rw [hmapeq]
            congr 1
            simp [freshAssign, List.lookup]
      _ = (t, freshObjId n) :: freshAssign ts (n + 1) := by rw [ih hnd (n + 1)]
      _ = freshAssign (t :: ts) n := rfl

lemma lookup_freshAssign_mem (tags : List String) (n : Nat) (t : String) (ht : t ∈ tags) :
    ∃ j, j < tags.length ∧
      List.lookup t (freshAssign tags n) = some (freshObjId (n + j)) := by
  induction tags generalizing n with
  | nil => cases ht
  | cons t0 ts ih =>
    by_cases h : t = t0
    · subst h
      exact ⟨0, by simp, by simp [freshAssign, List.lookup]⟩
    · rcases List.mem_cons.mp ht with h' | h'
      · exact absurd h' h
      · obtain ⟨j, hj, hl⟩ := ih (n + 1) h'
        refine ⟨j + 1, by simpa using hj, ?_⟩
        have hne : (t == t0) = false := beq_eq_false_iff_ne.mpr h
        simp only [freshAssign, List.lookup, hne]
        rw [hl]
        congr 2
        omega

lemma creationOrder_perm (bp : List (String × Spec)) :
    List.Perm (creationOrder bp) (bp.map Prod.fst) := by
  unfold creationOrder
  have h := List.filter_append_perm (fun t => !pyStartsWith t "fu-") (bp.map Prod.fst)
  simpa [Bool.not_not] using h

/-- Creation with an empty existing-identity map assigns consecutive fresh
identities in creation order. -/
lemma createLoop_fresh (tags : List String) (app : AppS) (sv : Servicer) (evs : List Event)
    (hbp : ∀ p ∈ app.blueprint, (Prod.snd p).label = none)
    (hex : app.tag_to_existing_id = []) :
    createLoop tags app sv evs =
      (({ app with tag_to_object := app.tag_to_object ++ freshAssign tags sv.n_obj_ids },
        { sv with n_obj_ids := sv.n_obj_ids + tags.length },
        evs ++ (freshAssign tags sv.n_obj_ids).map (fun p => Event.createObject p.1 p.2)),
       none) := by
  induction tags generalizing app sv evs with
  | nil => simp [createLoop, freshAssign]
  | cons t ts ih =>
    rw [createLoop_cons_nolabel t ts app sv evs (blueprint_nolabel_lookup hbp t), hex]
    simp only [List.lookup_nil, Servicer.load]
    rw [ih _ _ _ (by simpa using hbp) (by simp [hex])]
    simp [freshAssign, List.append_assoc]
    omega

/-- Creation with an existing-identity map covering every tag returns exactly
the existing identities and leaves the backend untouched. -/
lemma createLoop_resume (tags : List String) (app : AppS) (sv : Servicer) (evs : List Event)
    (hbp : ∀ p ∈ app.blueprint, (Prod.snd p).label = none)
    (hex : ∀ t ∈ tags, (List.lookup t app.tag_to_existing_id).isSome = true) :
    createLoop tags app sv evs =
      (({ app with tag_to_object := app.tag_to_object ++ tags.map (fun t => (t, (List.lookup t app.tag_to_existing_id).getD "")) },
        sv,
        evs ++ tags.map (fun t =>
          Event.createObject t ((List.lookup t app.tag_to_existing_id).getD ""))),
       none) := by
  induction tags generalizing app sv evs with
  | nil => simp [createLoop]
  | cons t ts ih =>
    rw [createLoop_cons_nolabel t ts app sv evs (blueprint_nolabel_lookup hbp t)]
    obtain ⟨e, he⟩ := Option.isSome_iff_exists.mp (hex t (by simp))
    rw [he]
    simp only [Servicer.load]
    rw [ih _ _ _ (by simpa using hbp)
      (by intro u hu; simpa using hex u (List.mem_cons_of_mem t hu))]
    simp [he, List.append_assoc]

/-- Full computation of a deploy that finds no existing deployment under the
name: a fresh application identity and consecutive fresh object identities
are assigned, published, and bound to the name. -/
lemma deployApp_fresh (app : AppS) (sv : Servicer) (n inferred cid : String)
    (h0 : app.state = AppState.none)
    (hobj : app.tag_to_object = [])
    (hbp : ∀ p ∈ app.blueprint, (Prod.snd p).label = none)
    (hmiss : List.lookup n sv.deployed_apps = none) :
    deployApp app sv (some n) inferred cid =
      { app := { app with app_id := some (freshAppId sv.n_app_ids), client := none, deployment_name := some n, state := AppState.none, tag_to_object := [], tag_to_existing_id := [], progress := none },
        sv := { sv with n_app_ids := sv.n_app_ids + 1, n_obj_ids := sv.n_obj_ids + (creationOrder app.blueprint).length, deployed_apps := (n, freshAppId sv.n_app_ids) :: sv.deployed_apps, app_objects := (freshAppId sv.n_app_ids, freshAssign (creationOrder app.blueprint) sv.n_obj_ids) :: sv.app_objects },
        events := Event.appGetByDeploymentName n ::
          Event.appCreate (appNameProp app.user_name inferred) ::
          ((freshAssign (creationOrder app.blueprint) sv.n_obj_ids).map
            (fun p => Event.createObject p.1 p.2) ++
          [Event.appSetObjects (freshAppId sv.n_app_ids)
            (freshAssign (creationOrder app.blueprint) sv.n_obj_ids),
           Event.stateTransition AppState.running,
           Event.appDeploy (freshAppId sv.n_app_ids) n,
           Event.stateTransition AppState.stopping,
           Event.appClientDisconnect (freshAppId sv.n_app_ids),
           Event.resetFields]),
        ret := Except.ok (freshAppId sv.n_app_ids) } := by
  unfold deployApp
  rw [if_neg (by simp [h0])]
  simp only [resolveDeployName]
  unfold runApp
  rw [if_neg (by simp [h0])]
  simp only [Servicer.appGetByDeploymentName, hmiss, Servicer.appCreate]
  rw [createLoop_fresh (creationOrder app.blueprint) _ _ [] (by simpa using hbp) (by simp)]
  simp [resetApp, Servicer.appSetObjects, Servicer.appDeploy, hobj, List.append_assoc]

/-- Full computation of a deploy that resumes an existing deployment whose
published map covers the Blueprint: every identity is preserved and the same
map is republished. -/
lemma deployApp_resume (app : AppS) (sv : Servicer) (n inferred cid aid : String)
    (m : List (String × String))
    (h0 : app.state = AppState.none)
    (hobj : app.tag_to_object = [])
    (hbp : ∀ p ∈ app.blueprint, (Prod.snd p).label = none)
    (hfound : List.lookup n sv.deployed_apps = some aid)
    (hm : List.lookup aid sv.app_objects = some m)
    (hcover : ∀ t ∈ creationOrder app.blueprint, (List.lookup t m).isSome = true)
    (hself : (creationOrder app.blueprint).map (fun t => (t, (List.lookup t m).getD "")) = m) :
    deployApp app sv (some n) inferred cid =
      { app := { app with app_id := some aid, client := none, deployment_name := some n, state := AppState.none, tag_to_object := [], tag_to_existing_id := m, progress := none },
        sv := { sv with deployed_apps := (n, aid) :: sv.deployed_apps, app_objects := (aid, m) :: sv.app_objects },
        events := Event.appGetByDeploymentName n ::
          Event.appGetObjects aid ::
          ((creationOrder app.blueprint).map
            (fun t => Event.createObject t ((List.lookup t m).getD "")) ++
          [Event.appSetObjects aid m,
           Event.stateTransition AppState.running,
           Event.appDeploy aid n,
           Event.stateTransition AppState.stopping,
           Event.appClientDisconnect aid,
           Event.resetFields]),
        ret := Except.ok aid } := by
  unfold deployApp
  rw [if_neg (by simp [h0])]
  simp only [resolveDeployName]
  unfold runApp
  rw [if_neg (by simp [h0])]
  simp only [Servicer.appGetByDeploymentName, hfound, Servicer.appGetObjects, hm,
    Option.getD_some]
  rw [createLoop_resume (creationOrder app.blueprint) _ _ [] (by simpa using hbp)
    (by simpa using hcover)]
  simp [resetApp, Servicer.appSetObjects, Servicer.appDeploy, hobj, hself, List.append_assoc]

/-! ## Theorems: redeploy idempotence (`deploy`) -/

/-- Claim C3: with the identity-preserving backend, deploying a fixed
reference-free object set twice under the same name yields the same
application identity and the same per-tag object identities both times (the
existing-identity map fetched from the prior deployment is threaded through
each creation call), while a subsequent deploy under a different name yields
a new application identity and new per-tag identities. -/
theorem deploy_identity_reconciliation (bp : List (String × Spec)) (u : Option String)
    (n1 n2 inferred cid : String) (d1 d2 d3 : DeployResult)
    (hnodup : (bp.map Prod.fst).Nodup)
    (hrefs : ∀ p ∈ bp, (Prod.snd p).label = none)
    (hne : n2 ≠ n1)
    (hd1 : deployApp (mkApp u bp) Servicer.init (some n1) inferred cid = d1)
    (hd2 : deployApp d1.app d1.sv (some n1) inferred cid = d2)
    (hd3 : deployApp d2.app d2.sv (some n2) inferred cid = d3) :
    ∃ aid1 aid3 m1 m3,
      d1.ret = Except.ok aid1 ∧
      List.lookup aid1 d1.sv.app_objects = some m1 ∧
      d2.ret = Except.ok aid1 ∧
      List.lookup aid1 d2.sv.app_objects = some m1 ∧
      d3.ret = Except.ok aid3 ∧
      aid3 ≠ aid1 ∧
      List.lookup aid3 d3.sv.app_objects = some m3 ∧
      (∀ t ∈ bp.map Prod.fst, ∃ i1 i3,
        List.lookup t m1 = some i1 ∧ List.lookup t m3 = some i3 ∧ i3 ≠ i1) := by
  have hperm := creationOrder_perm bp
  have htnd : (creationOrder bp).Nodup := hperm.nodup_iff.mpr hnodup
  have hbp0 : ∀ p ∈ (mkApp u bp).blueprint, (Prod.snd p).label = none := hrefs
  have e1 := deployApp_fresh (mkApp u bp) Servicer.init n1 inferred cid rfl rfl hbp0 rfl
  simp only [Servicer.init, mkApp, Nat.zero_add] at e1
  simp only [Servicer.init, mkApp] at hd1
  rw [e1] at hd1
  subst hd1
  simp only [Servicer.init, mkApp, Nat.zero_add] at hd2
  rw [deployApp_resume _ _ n1 inferred cid (freshAppId 0) (freshAssign (creationOrder bp) 0)
    rfl rfl hrefs (by simp [List.lookup]) (by simp [List.lookup])
    (by
      intro t ht
      obtain ⟨j, hj, hl⟩ := lookup_freshAssign_mem (creationOrder bp) 0 t ht
      simp [hl])
    (lookup_freshAssign_self (creationOrder bp) htnd 0)] at hd2
  subst hd2
  simp only [Nat.zero_add] at hd3
  have hb : (n2 == n1) = false := beq_eq_false_iff_ne.mpr hne
  rw [deployApp_fresh _ _ n2 inferred cid rfl rfl hrefs (by simp [List.lookup, hb])] at hd3
  subst hd3
  refine ⟨freshAppId 0, freshAppId 1, freshAssign (creationOrder bp) 0,
    freshAssign (creationOrder bp) (creationOrder bp).length,
    by simp, by simp [List.lookup], by simp, by simp [List.lookup],
    by simp, by decide, by simp [List.lookup], ?_⟩
  intro t ht
  have ht2 : t ∈ creationOrder bp := hperm.mem_iff.mpr ht
  obtain ⟨j1, hj1, hl1⟩ := lookup_freshAssign_mem (creationOrder bp) 0 t ht2
  obtain ⟨j3, hj3, hl3⟩ :=
    lookup_freshAssign_mem (creationOrder bp) (creationOrder bp).length t ht2
  refine ⟨freshObjId (0 + j1), freshObjId ((creationOrder bp).length + j3), hl1, hl3, ?_⟩
  intro h
  have h2 := freshObjId_inj h
  omega

/-- Blueprint, and the three chained deploys, instantiating
`deploy_identity_reconciliation` concretely: one queue object deployed twice
under `"my-app"` and once under `"my-app-xyz"` (the scenario of
`client_test/app_test.py::test_redeploy`). -/
def c3Bp : List (String × Spec) := [("q_1", ⟨false, none⟩)]

/-- First deploy of the witness scenario. -/
def c3D1 : DeployResult := deployApp (mkApp none c3Bp) Servicer.init (some "my-app") "inf" "cl"

/-- Second deploy (same name) of the witness scenario. -/
def c3D2 : DeployResult := deployApp c3D1.app c3D1.sv (some "my-app") "inf" "cl"

/-- Third deploy (different name) of the witness scenario. -/
def c3D3 : DeployResult := deployApp c3D2.app c3D2.sv (some "my-app-xyz") "inf" "cl"

/-- Concrete instantiation of `deploy_identity_reconciliation` on the
one-queue app, with every hypothesis discharged. -/
theorem deploy_identity_reconciliation_witness :
    ∃ aid1 aid3 m1 m3,
      c3D1.ret = Except.ok aid1 ∧
      List.lookup aid1 c3D1.sv.app_objects = some m1 ∧
      c3D2.ret = Except.ok aid1 ∧
      List.lookup aid1 c3D2.sv.app_objects = some m1 ∧
      c3D3.ret = Except.ok aid3 ∧
      aid3 ≠ aid1 ∧
      List.lookup aid3 c3D3.sv.app_objects = some m3 ∧
      (∀ t ∈ c3Bp.map Prod.fst, ∃ i1 i3,
        List.lookup t m1 = some i1 ∧ List.lookup t m3 = some i3 ∧ i3 ≠ i1) :=
  deploy_identity_reconciliation c3Bp none "my-app" "my-app-xyz" "inf" "cl" c3D1 c3D2 c3D3
    (by decide) (by decide) (by decide) rfl rfl rfl

end Spec2Proof
